import Mathlib

/-!
Verification development for the diffusion-based MPC repository
(`scripts/Panda/panda_inference/inference_diffusion_panda.py` and
`scripts/train_diffusion/NN_cart_pole_train.py`).

The Python scripts are shallowly embedded: pure numpy/python arithmetic is
translated into Lean functions over `ℚ` (exact rational arithmetic standing
for the scripts' floating-point values), numpy arrays of a known shape become
functions out of `Fin`-types matching that shape, and the external
collaborators the scripts merely call (the MuJoCo physics engine, the
diffusion sampler, wall-clock timing, the float `np.linalg.norm`) are
parameters of the embedding, since the repository does not implement them.
-/

namespace PandaInference

/-! ### Module-level constants of `inference_diffusion_panda.py` (lines 30-38) -/

def WEIGHT_GUIDANC : ℚ := 1/100

def HORIZON : ℕ := 128

instance : NeZero HORIZON := ⟨by decide⟩

/-- `TARGET_POS = np.array([0.3, 0.3, 0.5]).reshape(3, 1)`, modelled as the
3-vector of its entries. -/
def TARGET_POS : Fin 3 → ℚ := ![3/10, 3/10, 1/2]

def SAMPLING_STEPS : ℕ := 200

def CONTROL_RATE : ℕ := 10

/-- `Q = np.diag([10,10,10])`. -/
def Q : Fin 3 → Fin 3 → ℚ := fun i j => if i = j then 10 else 0

/-- `R = 0.5`. -/
def R : ℚ := 1/2

/-- `P = np.diag([10,10,10])`. -/
def P : Fin 3 → Fin 3 → ℚ := fun i j => if i = j then 10 else 0

/-! ### `mpc_cost` (lines 459-481)

`predicted_states` is the `(3, HORIZON+1, 1)` numpy array, and
`predicted_controls` is the `(1, HORIZON, 7)` torch tensor the function
receives.  The function first transposes the controls to `(7, HORIZON, 1)`
(`transpose(2,1,0)`), so the 7-vector `predicted_controls[:, i, 0]` it reads
afterwards is `predicted_controls[0, i, :]` of the original tensor; the
embedding indexes the original tensor accordingly. -/

/-- `ca.sumsqr` of a 7-vector: the sum of the squares of its entries. -/
def sumsqr (v : Fin 7 → ℚ) : ℚ := ∑ a : Fin 7, (v a) ^ 2

/-- Quadratic MPC cost of `inference_diffusion_panda.py`, lines 459-481:
initial-state cost, stage loop `for i in range(predicted_controls.shape[1]-1)`
(a sum over `Fin (HORIZON - 1)`), and terminal cost at the last state. -/
def mpc_cost (predicted_states : Fin 3 → Fin (HORIZON + 1) → Fin 1 → ℚ)
    (predicted_controls : Fin 1 → Fin HORIZON → Fin 7 → ℚ)
    (Qw : Fin 3 → Fin 3 → ℚ) (Rw : ℚ) (Pw : Fin 3 → Fin 3 → ℚ) : ℚ :=
  (Qw 0 0 * (predicted_states 0 0 0 - TARGET_POS 0) ^ 2
    + Qw 1 1 * (predicted_states 1 0 0 - TARGET_POS 1) ^ 2
    + Qw 2 2 * (predicted_states 2 0 0 - TARGET_POS 2) ^ 2)
  + (∑ i : Fin (HORIZON - 1),
      (Qw 0 0 * (predicted_states 0 i.succ.castSucc 0 - TARGET_POS 0) ^ 2
        + Qw 1 1 * (predicted_states 1 i.succ.castSucc 0 - TARGET_POS 1) ^ 2
        + Qw 2 2 * (predicted_states 2 i.succ.castSucc 0 - TARGET_POS 2) ^ 2
        + Rw * sumsqr (fun a =>
            predicted_controls 0 i.succ a - predicted_controls 0 i.castSucc a)))
  + (Pw 0 0 * (predicted_states 0 (Fin.last HORIZON) 0 - TARGET_POS 0) ^ 2
    + Pw 1 1 * (predicted_states 1 (Fin.last HORIZON) 0 - TARGET_POS 1) ^ 2
    + Pw 2 2 * (predicted_states 2 (Fin.last HORIZON) 0 - TARGET_POS 2) ^ 2)

/-- The cost exactly as the specification describes it: the sum of Q-weighted
squared deviations of states `x_0 … x_{HORIZON-1}` from `TARGET_POS`, plus the
P-weighted squared deviation of `x_HORIZON`, plus `R` times the squared norm
of each successive control difference `u_{i+1} - u_i`, `i = 0 … HORIZON-2`. -/
def quadraticCostSpec (predicted_states : Fin 3 → Fin (HORIZON + 1) → Fin 1 → ℚ)
    (predicted_controls : Fin 1 → Fin HORIZON → Fin 7 → ℚ)
    (Qw : Fin 3 → Fin 3 → ℚ) (Rw : ℚ) (Pw : Fin 3 → Fin 3 → ℚ) : ℚ :=
  (∑ k : Fin HORIZON, ∑ j : Fin 3,
      Qw j j * (predicted_states j k.castSucc 0 - TARGET_POS j) ^ 2)
  + (∑ j : Fin 3,
      Pw j j * (predicted_states j (Fin.last HORIZON) 0 - TARGET_POS j) ^ 2)
  + Rw * (∑ i : Fin (HORIZON - 1), sumsqr (fun a =>
      predicted_controls 0 i.succ a - predicted_controls 0 i.castSucc a))

/-! ### MuJoCo simulator state

The physics engine is an external collaborator: the embedding only records
the fields of an `mujoco.MjData` object the script reads and writes.  `qpos`,
`qvel` and `ctrl` are the joint position/velocity/actuation arrays; `xpos b`
is the Cartesian position of body `b`; `jacp`/`jacr` hold the position and
orientation Jacobians that `mujoco.mj_jac` writes for body 9 at `TARGET_POS`
(the only call site, in `compute_jacobian`).  Index types are `ℕ` because the
model sizes (`nq`, `nv`, …) come from the XML file, not from the script. -/

structure MjSim where
  qpos : ℕ → ℚ
  qvel : ℕ → ℚ
  ctrl : ℕ → ℚ
  xpos : ℕ → ℕ → ℚ
  jacp : ℕ → ℕ → ℚ
  jacr : ℕ → ℕ → ℚ

/-- `data.qpos[:7] = v` (slice assignment of the first 7 joint positions). -/
def setQpos7 (s : MjSim) (v : Fin 7 → ℚ) : MjSim :=
  { s with qpos := fun i => if h : i < 7 then v ⟨i, h⟩ else s.qpos i }

/-- `data.ctrl[:7] = v` (slice assignment of the first 7 actuator controls). -/
def setCtrl7 (s : MjSim) (v : Fin 7 → ℚ) : MjSim :=
  { s with ctrl := fun i => if h : i < 7 then v ⟨i, h⟩ else s.ctrl i }

/-- `compute_jacobian` (lines 308-319): calls `mujoco.mj_jac` for body 9 at
`tpoint` and returns the pair `(jacp, jacr)`.  `mj_jac` itself is external, so
its output is read off the simulator state; `tpoint` (always `TARGET_POS` at
the call sites) is consumed by the external call. -/
def compute_jacobian (data : MjSim) (tpoint : Fin 3 → ℚ) :
    (ℕ → ℕ → ℚ) × (ℕ → ℕ → ℚ) :=
  (data.jacp, data.jacr)

/-- One numpy slice assignment `a[lo : lo+len] = v` on a 20-row column
vector. -/
def writeSlice20 (a : Fin 20 → ℚ) (lo len : ℕ) (v : ℕ → ℚ) : Fin 20 → ℚ :=
  fun i => if lo ≤ i.val ∧ i.val < lo + len then v (i.val - lo) else a i

/-- `state_loading` (lines 377-399): reads `qpos`, `qvel`, `xpos[9]` from the
simulator, computes the hand velocity `jacp[:, :7] @ qvel[:7]`, assembles the
20-row context by the four slice assignments `[:7]`, `[7:14]`, `[14:17]`,
`[17:20]` into `np.zeros((20,1))`, and returns
`(q_current_pos, x_current_pos, context_current)` with the context reshaped
to `(1, 20)` (modelled as the vector of its 20 entries). -/
def state_loading (data : MjSim) :
    (Fin 7 → ℚ) × (Fin 3 → ℚ) × (Fin 20 → ℚ) :=
  let q_current : ℕ → ℚ := data.qpos
  let q_dot_current : ℕ → ℚ := data.qvel
  let x_current : ℕ → ℚ := data.xpos 9
  let jacp : ℕ → ℕ → ℚ := (compute_jacobian data TARGET_POS).1
  let x_dot_current : ℕ → ℚ := fun r => ∑ c : Fin 7, jacp r c.val * q_dot_current c.val
  let context_current : Fin 20 → ℚ :=
    writeSlice20 (writeSlice20 (writeSlice20 (writeSlice20
      (fun _ => 0) 0 7 q_current) 7 7 q_dot_current) 14 3 x_current) 17 3 x_dot_current
  (fun i => q_current i.val, fun j => x_current j.val, context_current)

/-! ### `diffusion_horizon_states` (lines 483-500)

The function builds a fresh simulation (`MjData` of the same scene XML),
writes the current joint positions into `qpos[:7]`, steps once, and then for
`k in range(HORIZON)` writes the `k`-th sampled control into `ctrl[:7]`,
steps, and records the hand position (body 9) into column `k+1` of a
preallocated `(3, HORIZON+1, 1)` array (column `0` holds the position right
after the initial step).  `mujoco.mj_step` and the fresh `MjData` are
external, so they are parameters `step` and `fresh`. -/

/-- `inputs_final[0, k, :]` for a loop counter `k < HORIZON` (the loop only
ever reads indices below `HORIZON`; the out-of-range default is unreached). -/
def ctrlRow (inputs_final : Fin 1 → Fin HORIZON → Fin 7 → ℚ) (k : ℕ) :
    Fin 7 → ℚ :=
  if h : k < HORIZON then inputs_final 0 ⟨k, h⟩ else fun _ => 0

/-- State of the rollout loop of `diffusion_horizon_states` after `m`
iterations: the current fresh-simulation state `data_cost` and the partially
filled `(3, HORIZON+1, 1)` array. -/
def dhsAux (step : MjSim → MjSim) (fresh : MjSim)
    (inputs_final : Fin 1 → Fin HORIZON → Fin 7 → ℚ)
    (q_current_pos : Fin 7 → ℚ) :
    ℕ → MjSim × (Fin 3 → Fin (HORIZON + 1) → Fin 1 → ℚ)
  | 0 =>
    let data_cost := step (setQpos7 fresh q_current_pos)
    (data_cost, fun j k _ => if k.val = 0 then data_cost.xpos 9 j.val else 0)
  | m + 1 =>
    let prev := dhsAux step fresh inputs_final q_current_pos m
    let data_cost := step (setCtrl7 prev.1 (ctrlRow inputs_final m))
    (data_cost,
     fun j k c => if k.val = m + 1 then data_cost.xpos 9 j.val else prev.2 j k c)

/-- `diffusion_horizon_states`: the filled array after all `HORIZON` loop
iterations.  `x_current_pos` is a parameter of the Python function that its
body never reads. -/
def diffusion_horizon_states (step : MjSim → MjSim) (fresh : MjSim)
    (x_current_pos : Fin 3 → ℚ)
    (inputs_final : Fin 1 → Fin HORIZON → Fin 7 → ℚ)
    (q_current_pos : Fin 7 → ℚ) : Fin 3 → Fin (HORIZON + 1) → Fin 1 → ℚ :=
  (dhsAux step fresh inputs_final q_current_pos HORIZON).2

/-- Spec-side description of the forward-simulated rollout: state `0` is the
freshly constructed simulation with `qpos[:7]` set to the current joint
positions and stepped once; state `k+1` is obtained from state `k` by writing
the `k`-th sampled control input to `ctrl` and advancing one step. -/
def rolloutSim (step : MjSim → MjSim) (fresh : MjSim)
    (inputs_final : Fin 1 → Fin HORIZON → Fin 7 → ℚ)
    (q_current_pos : Fin 7 → ℚ) : ℕ → MjSim
  | 0 => step (setQpos7 fresh q_current_pos)
  | k + 1 =>
    step (setCtrl7 (rolloutSim step fresh inputs_final q_current_pos k)
      (ctrlRow inputs_final k))

/-! ### The receding-horizon control loop of `main` (lines 40-163)

External collaborators of the loop are gathered in `ExternalParams`:
`step` is `mujoco.mj_step`; `freshMain`/`freshCost` are the freshly
constructed `MjData` states of the scene (lines 78-79 and 484-485); `sample`
is the composite of `diffusion_sampling`, `dataset.unnormalize_states` and
the selection `inputs_iters[-1]` of the final denoised trajectory — a
function from the `(1, 20)` conditioning context to the `(1, HORIZON, 7)`
control trajectory; `npNorm` is the float `np.linalg.norm`; `tickTime` is
the wall-clock duration of the sampling call at a given tick. -/

structure ExternalParams where
  step : MjSim → MjSim
  freshMain : MjSim
  freshCost : MjSim
  sample : (Fin 20 → ℚ) → Fin 1 → Fin HORIZON → Fin 7 → ℚ
  npNorm : (Fin 3 → ℚ) → ℚ
  tickTime : ℕ → ℚ

/-- `ini_joint_states = np.array([[0, 0, 0, 0, 0, 0, 0]])` (line 75). -/
def ini_joint_states : Fin 7 → ℚ := fun _ => 0

/-- Mutable state of the loop in `main`: the simulator, the tick counter
`sampling_step`, and the six preallocated memory arrays (first dimension
`SAMPLING_STEPS`; rows are modelled as total functions on `ℕ` so that
staying inside the preallocated rows is a provable property). -/
structure LoopState where
  data : MjSim
  sampling_step : ℕ
  x_pos_memory : ℕ → Fin 3 → ℚ
  q_pos_memory : ℕ → Fin 7 → ℚ
  ctl_memory : ℕ → Fin 7 → ℚ
  abs_dis_memory : ℕ → ℚ
  cost_memory : ℕ → ℚ
  single_time_set : ℕ → ℚ

/-- State before the loop: `data.qpos[:7] = ini_joint_states` followed by one
`mj_step` (lines 83-84), `sampling_step = 0`, all memories `np.zeros`. -/
def initState (Pr : ExternalParams) : LoopState :=
  { data := Pr.step (setQpos7 Pr.freshMain ini_joint_states)
    sampling_step := 0
    x_pos_memory := fun _ _ => 0
    q_pos_memory := fun _ _ => 0
    ctl_memory := fun _ _ => 0
    abs_dis_memory := fun _ => 0
    cost_memory := fun _ => 0
    single_time_set := fun _ => 0 }

/-- One iteration of the outer loop (`for panda_step in range(0,
SAMPLING_STEPS*CONTROL_RATE)`, lines 103-159).  When `panda_step` is
divisible by `CONTROL_RATE` the sampling branch runs: it loads the state and
context, records position/distance/time, samples the diffusion model, rolls
the trajectory forward, records its cost and first input, writes that first
input `inputs_final[0,0,:]` to `data.ctrl[:7]`, and increments
`sampling_step`.  In both cases the iteration ends with one `mj_step`
(line 159). -/
def loopIter (Pr : ExternalParams) (s : LoopState) (panda_step : ℕ) : LoopState :=
  let s' :=
    if panda_step % CONTROL_RATE = 0 then
      let q_current_pos := (state_loading s.data).1
      let x_current_pos := (state_loading s.data).2.1
      let context_current := (state_loading s.data).2.2
      let ss := s.sampling_step
      let inputs_final := Pr.sample context_current
      let diffusion_predicted_states :=
        diffusion_horizon_states Pr.step Pr.freshCost x_current_pos
          inputs_final q_current_pos
      let cost := mpc_cost diffusion_predicted_states inputs_final Q R P
      let applied_input := inputs_final 0 0
      { s with
        q_pos_memory := fun i => if i = ss then q_current_pos else s.q_pos_memory i
        x_pos_memory := fun i => if i = ss then x_current_pos else s.x_pos_memory i
        abs_dis_memory := fun i => if i = ss then
            Pr.npNorm (fun j => x_current_pos j - TARGET_POS j)
          else s.abs_dis_memory i
        single_time_set := fun i => if i = ss then Pr.tickTime ss
          else s.single_time_set i
        cost_memory := fun i => if i = ss then cost else s.cost_memory i
        ctl_memory := fun i => if i = ss then applied_input else s.ctl_memory i
        data := setCtrl7 s.data applied_input
        sampling_step := ss + 1 }
    else s
  { s' with data := Pr.step s'.data }

/-- The loop state after the first `n` iterations of the outer loop. -/
def runFor (Pr : ExternalParams) (n : ℕ) : LoopState :=
  (List.range n).foldl (loopIter Pr) (initState Pr)

/-- The loop state after the full outer loop
(`SAMPLING_STEPS * CONTROL_RATE` iterations). -/
def runLoop (Pr : ExternalParams) : LoopState :=
  runFor Pr (SAMPLING_STEPS * CONTROL_RATE)

/-! ### The `.npy` files written after the loop (lines 182-201) -/

/-- A value passed to `np.save`: a scalar or a 2-dimensional array. -/
inductive NpyValue where
  | scalar (x : ℚ)
  | matrix (m : List (List ℚ))
deriving DecidableEq

/-- The four `.npy` files the script writes, identified by name:
`x_trag.npy`, `solving_time_diffusion_.npy`, `single_time_diffusion_.npy`
and `cost_.npy` under the results directory. -/
inductive SavedFileTag where
  | x_trag
  | solving_time
  | single_time
  | cost
deriving DecidableEq, Fintype

/-- A `(SAMPLING_STEPS, 3)` memory array as a list-of-rows matrix. -/
def memoryMatrix3 (m : ℕ → Fin 3 → ℚ) : List (List ℚ) :=
  (List.range SAMPLING_STEPS).map (fun i => [m i 0, m i 1, m i 2])

/-- A `(SAMPLING_STEPS, 1)` memory array as a list-of-rows matrix. -/
def memoryMatrix1 (m : ℕ → ℚ) : List (List ℚ) :=
  (List.range SAMPLING_STEPS).map (fun i => [m i])

/-- The values `np.save`d after the loop (lines 182-201): the full
`x_pos_memory` trajectory, the scalar total solving time, the full
`single_time_set` series, and — for the cost — the scalar
`cost_sum = np.sum(cost_memory)` (line 198). -/
def savedNpyFiles (x_pos_memory : ℕ → Fin 3 → ℚ) (delta_t_problem_solving : ℚ)
    (single_time_set : ℕ → ℚ) (cost_memory : ℕ → ℚ) :
    SavedFileTag → NpyValue
  | SavedFileTag.x_trag => NpyValue.matrix (memoryMatrix3 x_pos_memory)
  | SavedFileTag.solving_time => NpyValue.scalar delta_t_problem_solving
  | SavedFileTag.single_time => NpyValue.matrix (memoryMatrix1 single_time_set)
  | SavedFileTag.cost =>
      NpyValue.scalar ((Finset.range SAMPLING_STEPS).sum cost_memory)

/-- An all-zero simulator state (used to instantiate the abstract external
parameters on concrete runs). -/
def trivSim : MjSim :=
  { qpos := fun _ => 0, qvel := fun _ => 0, ctrl := fun _ => 0
    xpos := fun _ _ => 0, jacp := fun _ _ => 0, jacr := fun _ _ => 0 }

/-- Concrete instantiation of the external collaborators: identity physics,
all-zero fresh states, zero sampler, zero norm and timer. -/
def trivParams : ExternalParams :=
  { step := id, freshMain := trivSim, freshCost := trivSim
    sample := fun _ _ _ _ => 0, npNorm := fun _ => 0, tickTime := fun _ => 0 }

/-- The concrete cost series used to exhibit that the cost series itself is
not among the saved values: cost 1 at tick 0, cost 2 at tick 1, 0 later. -/
def cmemEx : ℕ → ℚ := fun i => if i = 0 then 1 else if i = 1 then 2 else 0

end PandaInference

namespace CartPoleTrain

/-! ### `NN_cart_pole_train.py`

Embedding of the training script.  Model parameters are flattened to lists
of rationals (`torch` tensors elementwise); the gradient mathematics is
external (torch autograd / optimizer), so the sequence of model parameter
states across training steps is a parameter `params : ℕ → List ℚ` of the
EMA bookkeeping. -/

/-- The `EMA` class (lines 23-41): exponential-moving-average bookkeeping
with decay `beta` (constructed with `beta = ema_decay = 0.995`). -/
structure EMA where
  beta : ℚ

/-- `EMA.update_average` (lines 38-41): returns `new` when `old is None`,
else `old * beta + (1 - beta) * new`. -/
def EMA.update_average (e : EMA) (old : Option ℚ) (new : ℚ) : ℚ :=
  match old with
  | none => new
  | some o => o * e.beta + (1 - e.beta) * new

/-- `EMA.update_model_average` (lines 33-36): elementwise
`update_average` over the zipped parameter lists (the stored weights are
tensors, never `None`). -/
def EMA.update_model_average (e : EMA) (ema_model current_model : List ℚ) :
    List ℚ :=
  List.zipWith (fun old up => e.update_average (some old) up)
    ema_model current_model

/-- `ema_decay = 0.995` (line 174). -/
def ema_decay : ℚ := 995/1000

/-- `step_start_ema = 1000` (line 175). -/
def step_start_ema : ℕ := 1000

/-- `update_ema_every = 10` (line 176). -/
def update_ema_every : ℕ := 10

/-- The EMA block of the training loop (lines 481-487) at a step whose
pre-increment counter is `t = train_steps_current`: when `t` is divisible by
`update_ema_every`, first reset the EMA model to the current model if
`t < step_start_ema` (`ema_model.load_state_dict(model.state_dict())`),
then apply `update_model_average`; otherwise leave the EMA model
unchanged. -/
def emaUpdateAt (e : EMA) (ema_model current : List ℚ) (t : ℕ) : List ℚ :=
  if t % update_ema_every = 0 then
    e.update_model_average
      (if t < step_start_ema then current else ema_model) current
  else ema_model

/-- The EMA model's parameters after the first `n` training steps, where
`params t` is the current model's parameters visible at the EMA block of
step `t` and `ema0` is the initial deep copy of the model. -/
def emaAfterSteps (e : EMA) (params : ℕ → List ℚ) (ema0 : List ℚ) :
    ℕ → List ℚ
  | 0 => ema0
  | n + 1 => emaUpdateAt e (emaAfterSteps e params ema0 n) (params n) n

/-- The final EMA update performed once after the epoch loop ends
(lines 517-523), with `N = train_steps_current` total steps taken. -/
def emaFinal (e : EMA) (params : ℕ → List ℚ) (ema0 : List ℚ) (N : ℕ) :
    List ℚ :=
  e.update_model_average
    (if N < step_start_ema then params N else emaAfterSteps e params ema0 N)
    (params N)

/-! ### `AMPCNet` (lines 97-122), at the level of tensor shapes

The network's arithmetic (`torch.tanh`, affine layers) lives in torch and is
irrelevant to the shape claim; what the script fixes is the layer sizes and
the final `x.view(512, 8, 1)`.  The embedding tracks the shape of a 2-d
batch through each operation: `nn.Linear(i, o)` maps an `(n, i)` input to
`(n, o)` and is an error on any other column count, `torch.tanh`
preserves the shape, and `view(512, 8, 1)` succeeds exactly when the total
element count matches `512 * 8 * 1`. -/

structure LinearLayer where
  in_features : ℕ
  out_features : ℕ

def linearShape (l : LinearLayer) (s : ℕ × ℕ) : Option (ℕ × ℕ) :=
  if s.2 = l.in_features then some (s.1, l.out_features) else none

def tanhShape (s : ℕ × ℕ) : Option (ℕ × ℕ) := some s

def viewShape (s : ℕ × ℕ) (d0 d1 d2 : ℕ) : Option (ℕ × ℕ × ℕ) :=
  if s.1 * s.2 = d0 * d1 * d2 then some (d0, d1, d2) else none

/-- The four layers of `AMPCNet.__init__` (lines 98-104). -/
structure AMPCNet where
  hidden1 : LinearLayer
  hidden2 : LinearLayer
  hidden3 : LinearLayer
  output : LinearLayer

/-- `AMPCNet(input_size, output_size)`: `Linear(input_size, 2)`,
`Linear(2, 50)`, `Linear(50, 50)`, `Linear(50, output_size)`. -/
def AMPCNet.init (input_size output_size : ℕ) : AMPCNet :=
  { hidden1 := ⟨input_size, 2⟩
    hidden2 := ⟨2, 50⟩
    hidden3 := ⟨50, 50⟩
    output := ⟨50, output_size⟩ }

/-- `AMPCNet.forward` (lines 106-116): three tanh-activated hidden layers,
the linear output layer, then `x.view(512, 8, 1)`. -/
def AMPCNet.forward (m : AMPCNet) (s : ℕ × ℕ) : Option (ℕ × ℕ × ℕ) :=
  (linearShape m.hidden1 s).bind (fun s1 =>
    (tanhShape s1).bind (fun s1t =>
      (linearShape m.hidden2 s1t).bind (fun s2 =>
        (tanhShape s2).bind (fun s2t =>
          (linearShape m.hidden3 s2t).bind (fun s3 =>
            (tanhShape s3).bind (fun s3t =>
              (linearShape m.output s3t).bind (fun s4 =>
                viewShape s4 512 8 1)))))))

/-- `input_size = 4` (line 120). -/
def input_size : ℕ := 4

/-- `output_size = 8` (line 121). -/
def output_size : ℕ := 8

/-- `model = AMPCNet(input_size, output_size)` (line 122). -/
def model : AMPCNet := AMPCNet.init input_size output_size

/-! ### The per-epoch batch loop (lines 329-334, 495-515)

`for step, train_batch_dict in enumerate(train_dataloader)` with the guard
`if step == len(train_dataloader) - 1: break` before any work.  The loop is
modelled over the batch indices `range L` (`L = len(train_dataloader)`)
with an explicit break flag; the result is the list of batch indices that
reach the loss computation / optimizer step. -/

/-- One iteration of the batch loop: once broken stay broken; at
`step = L - 1` break before processing; otherwise process the batch. -/
def epochLoopStep (L : ℕ) (acc : Bool × List ℕ) (stp : ℕ) : Bool × List ℕ :=
  if acc.1 then acc
  else if stp = L - 1 then (true, acc.2)
  else (false, acc.2 ++ [stp])

/-- The batch indices processed in one epoch when the dataloader yields `L`
batches. -/
def processedBatches (L : ℕ) : List ℕ :=
  ((List.range L).foldl (epochLoopStep L) (false, [])).2

/-- `train_steps_current` after `E` completed epochs (it is incremented by
one for every processed batch; with `max_steps = None` and no early
stopping, the per-step break never fires). -/
def trainStepsAfterEpochs (L E : ℕ) : ℕ :=
  (List.range E).foldl (fun acc _ => acc + (processedBatches L).length) 0

end CartPoleTrain

namespace PandaInference

/-- C1: the cost evaluated at each sampling tick is the quadratic tracking
cost: Q-weighted squared deviations of states `x_0 … x_{HORIZON-1}` from
`TARGET_POS`, plus the P-weighted squared deviation of the final state
`x_HORIZON`, plus `R` times the squared norm of each successive control
difference `u_{i+1} - u_i` for `i = 0 … HORIZON-2` (the control penalty is on
differences of consecutive controls, not on the controls themselves). -/
theorem mpc_cost_is_quadratic_tracking_cost
    (Qw : Fin 3 → Fin 3 → ℚ) (Rw : ℚ) (Pw : Fin 3 → Fin 3 → ℚ)
    (predicted_states : Fin 3 → Fin (HORIZON + 1) → Fin 1 → ℚ)
    (predicted_controls : Fin 1 → Fin HORIZON → Fin 7 → ℚ) :
    mpc_cost predicted_states predicted_controls Qw Rw Pw
      = quadraticCostSpec predicted_states predicted_controls Qw Rw Pw := by
  unfold mpc_cost quadraticCostSpec
  have hQ : (∑ k : Fin HORIZON, ∑ j : Fin 3,
        Qw j j * (predicted_states j k.castSucc 0 - TARGET_POS j) ^ 2)
      = (∑ j : Fin 3, Qw j j * (predicted_states j 0 0 - TARGET_POS j) ^ 2)
        + ∑ i : Fin (HORIZON - 1), ∑ j : Fin 3,
            Qw j j * (predicted_states j i.succ.castSucc 0 - TARGET_POS j) ^ 2 :=
    Fin.sum_univ_succ _
  rw [hQ]
  simp only [Fin.sum_univ_three, Finset.sum_add_distrib, Finset.mul_sum]
  ring

/-- C10: with the configured weights `Q = diag(10,10,10)`, `R = 0.5`,
`P = diag(10,10,10)`, the value returned by `mpc_cost` is nonnegative for
every predicted-state array and control array (over exact rational
arithmetic). -/
theorem mpc_cost_nonneg
    (predicted_states : Fin 3 → Fin (HORIZON + 1) → Fin 1 → ℚ)
    (predicted_controls : Fin 1 → Fin HORIZON → Fin 7 → ℚ) :
    0 ≤ mpc_cost predicted_states predicted_controls Q R P := by
  unfold mpc_cost Q R P sumsqr
  positivity

/-- C4: the conditioning context built from the simulator state is a 20-entry
vector whose entries are, in order: the first 7 joint positions
(`data.qpos[0:7]`), the first 7 joint velocities (`data.qvel[0:7]`), the
3-dimensional Cartesian position of body 9 (`data.xpos[9]`), and the
3-dimensional Cartesian velocity obtained by multiplying the position
Jacobian (restricted to the first 7 columns) with the first 7 joint
velocities; `state_loading` also returns the 7 joint positions and the
3-dimensional body position separately. -/
theorem state_loading_context_layout (data : MjSim) :
    (∀ j : Fin 7,
      (state_loading data).2.2 ⟨j.val, by omega⟩ = data.qpos j.val) ∧
    (∀ j : Fin 7,
      (state_loading data).2.2 ⟨7 + j.val, by omega⟩ = data.qvel j.val) ∧
    (∀ j : Fin 3,
      (state_loading data).2.2 ⟨14 + j.val, by omega⟩ = data.xpos 9 j.val) ∧
    (∀ j : Fin 3,
      (state_loading data).2.2 ⟨17 + j.val, by omega⟩
        = ∑ c : Fin 7, data.jacp j.val c.val * data.qvel c.val) ∧
    (∀ j : Fin 7, (state_loading data).1 j = data.qpos j.val) ∧
    (∀ j : Fin 3, (state_loading data).2.1 j = data.xpos 9 j.val) := by
  unfold state_loading compute_jacobian writeSlice20
  refine ⟨fun j => ?_, fun j => ?_, fun j => ?_, fun j => ?_,
    fun j => rfl, fun j => rfl⟩
  · obtain ⟨jv, hj⟩ := j
    simp only
    rw [if_neg (by omega), if_neg (by omega), if_neg (by omega),
      if_pos (by omega), Nat.sub_zero]
  · obtain ⟨jv, hj⟩ := j
    simp only
    rw [if_neg (by omega), if_neg (by omega), if_pos (by omega),
      show 7 + jv - 7 = jv from by omega]
  · obtain ⟨jv, hj⟩ := j
    simp only
    rw [if_neg (by omega), if_pos (by omega),
      show 14 + jv - 14 = jv from by omega]
  · obtain ⟨jv, hj⟩ := j
    simp only
    rw [if_pos (by omega), show 17 + jv - 17 = jv from by omega]

theorem dhsAux_fst (step : MjSim → MjSim) (fresh : MjSim)
    (inputs_final : Fin 1 → Fin HORIZON → Fin 7 → ℚ)
    (q_current_pos : Fin 7 → ℚ) (m : ℕ) :
    (dhsAux step fresh inputs_final q_current_pos m).1
      = rolloutSim step fresh inputs_final q_current_pos m := by
  induction m with
  | zero => rfl
  | succ m ih =>
    simp only [dhsAux, rolloutSim]
    rw [ih]

theorem dhsAux_snd (step : MjSim → MjSim) (fresh : MjSim)
    (inputs_final : Fin 1 → Fin HORIZON → Fin 7 → ℚ)
    (q_current_pos : Fin 7 → ℚ) (m : ℕ) :
    ∀ (j : Fin 3) (k : Fin (HORIZON + 1)) (c : Fin 1), k.val ≤ m →
      (dhsAux step fresh inputs_final q_current_pos m).2 j k c
        = (rolloutSim step fresh inputs_final q_current_pos k.val).xpos 9 j.val := by
  induction m with
  | zero =>
    intro j k c hk
    have hk0 : k.val = 0 := Nat.le_zero.mp hk
    simp only [dhsAux]
    rw [if_pos hk0, hk0]
    rfl
  | succ m ih =>
    intro j k c hk
    simp only [dhsAux]
    by_cases h : k.val = m + 1
    · rw [if_pos h, dhsAux_fst, h]
      rfl
    · rw [if_neg h]
      exact ih j k c (by omega)

/-- C5: the forward-simulated rollout computed by `diffusion_horizon_states`
is the `(3, HORIZON+1, 1)` array whose entry `k = 0` is the hand position
(body 9) of a freshly constructed simulation with `qpos[:7]` set to the
current joint positions and stepped once, and whose entry `k+1` is the hand
position after writing the `k`-th sampled control to `ctrl` and advancing
that fresh simulation one more step — exactly the states of `rolloutSim`,
which is defined by that description. -/
theorem diffusion_horizon_states_is_rollout
    (step : MjSim → MjSim) (fresh : MjSim) (x_current_pos : Fin 3 → ℚ)
    (inputs_final : Fin 1 → Fin HORIZON → Fin 7 → ℚ)
    (q_current_pos : Fin 7 → ℚ) (j : Fin 3) (k : Fin (HORIZON + 1)) (c : Fin 1) :
    diffusion_horizon_states step fresh x_current_pos inputs_final
        q_current_pos j k c
      = (rolloutSim step fresh inputs_final q_current_pos k.val).xpos 9 j.val := by
  unfold diffusion_horizon_states
  exact dhsAux_snd step fresh inputs_final q_current_pos HORIZON j k c
    (Nat.lt_succ_iff.mp k.isLt)

/-- C2: on a sampling tick (`panda_step % CONTROL_RATE == 0`) the iteration
writes exactly the first control input `inputs_final[0,0,:]` of the final
denoised trajectory to the simulator's `ctrl` field (the remaining
`HORIZON-1` inputs are never applied to the simulator), and on every
iteration — tick or not — the physics is advanced by exactly one `mj_step`. -/
theorem applied_control_is_first_input
    (Pr : ExternalParams) (s : LoopState) (panda_step : ℕ) :
    (loopIter Pr s panda_step).data
      = Pr.step (if panda_step % CONTROL_RATE = 0 then
          setCtrl7 s.data (Pr.sample ((state_loading s.data).2.2) 0 0)
        else s.data) := by
  unfold loopIter
  by_cases h : panda_step % CONTROL_RATE = 0
  · rw [if_pos h, if_pos h]
  · rw [if_neg h, if_neg h]

theorem runFor_succ (Pr : ExternalParams) (n : ℕ) :
    runFor Pr (n + 1) = loopIter Pr (runFor Pr n) n := by
  unfold runFor
  rw [List.range_succ, List.foldl_append]
  rfl

theorem runFor_invariant (Pr : ExternalParams) (n : ℕ) :
    (runFor Pr n).sampling_step = (n + 9) / 10 ∧
    ∀ i, (n + 9) / 10 ≤ i →
      (runFor Pr n).x_pos_memory i = (fun _ => 0) ∧
      (runFor Pr n).q_pos_memory i = (fun _ => 0) ∧
      (runFor Pr n).ctl_memory i = (fun _ => 0) ∧
      (runFor Pr n).abs_dis_memory i = 0 ∧
      (runFor Pr n).cost_memory i = 0 ∧
      (runFor Pr n).single_time_set i = 0 := by
  induction n with
  | zero =>
    exact ⟨rfl, fun i _ => ⟨rfl, rfl, rfl, rfl, rfl, rfl⟩⟩
  | succ n ih =>
    rw [runFor_succ]
    obtain ⟨ihs, ihm⟩ := ih
    unfold loopIter
    by_cases h : n % CONTROL_RATE = 0
    · have h10 : n % 10 = 0 := h
      rw [if_pos h]
      constructor
      · show (runFor Pr n).sampling_step + 1 = (n + 1 + 9) / 10
        rw [ihs]
        omega
      · intro i hi
        have hne : i ≠ (runFor Pr n).sampling_step := by
          rw [ihs]; omega
        have hle : (n + 9) / 10 ≤ i := by omega
        obtain ⟨m1, m2, m3, m4, m5, m6⟩ := ihm i hle
        exact ⟨by simpa [hne] using m1, by simpa [hne] using m2,
          by simpa [hne] using m3, by simpa [hne] using m4,
          by simpa [hne] using m5, by simpa [hne] using m6⟩
    · have h10 : ¬ n % 10 = 0 := h
      rw [if_neg h]
      constructor
      · show (runFor Pr n).sampling_step = (n + 1 + 9) / 10
        rw [ihs]
        omega
      · intro i hi
        have hle : (n + 9) / 10 ≤ i := by omega
        exact ihm i hle

/-- C6: the receding-horizon loop is a fixed-iteration loop over
preallocated arrays: the outer loop runs exactly
`SAMPLING_STEPS * CONTROL_RATE = 2000` iterations, the sampling branch runs
exactly `SAMPLING_STEPS = 200` times (the final `sampling_step` counter),
and every write into the preallocated memory arrays uses a row index in
`0 … SAMPLING_STEPS - 1`: all rows at index `≥ SAMPLING_STEPS` still hold
their initial zeros when the loop finishes. -/
theorem control_loop_fixed_iterations (Pr : ExternalParams) :
    SAMPLING_STEPS * CONTROL_RATE = 2000 ∧
    (runLoop Pr).sampling_step = SAMPLING_STEPS ∧
    ∀ i, SAMPLING_STEPS ≤ i →
      (runLoop Pr).x_pos_memory i = (fun _ => 0) ∧
      (runLoop Pr).q_pos_memory i = (fun _ => 0) ∧
      (runLoop Pr).ctl_memory i = (fun _ => 0) ∧
      (runLoop Pr).abs_dis_memory i = 0 ∧
      (runLoop Pr).cost_memory i = 0 ∧
      (runLoop Pr).single_time_set i = 0 := by
  have hEq : runLoop Pr = runFor Pr 2000 := by
    unfold runLoop
    norm_num [SAMPLING_STEPS, CONTROL_RATE]
  have hdiv : (2000 + 9) / 10 = SAMPLING_STEPS := by norm_num [SAMPLING_STEPS]
  obtain ⟨h1, h2⟩ := runFor_invariant Pr 2000
  rw [hdiv] at h1 h2
  rw [hEq]
  exact ⟨by decide, h1, h2⟩

theorem control_loop_fixed_iterations_witness :
    SAMPLING_STEPS ≤ 200 ∧ (runLoop trivParams).cost_memory 200 = 0 :=
  ⟨by decide,
    (((control_loop_fixed_iterations trivParams).2.2 200 (by decide)).2.2.2.2.1)⟩

/-- C3 counterexample: with the concrete cost series `cmemEx` (cost 1 at
tick 0, cost 2 at tick 1, 0 afterwards), the `.npy` value saved at the cost
path is the scalar `np.sum(cost_memory) = 3`, and no saved `.npy` value
equals the per-tick cost series itself — refuting that "the per-tick cost
series" is saved to disk. -/
theorem cost_series_not_saved :
    savedNpyFiles (fun _ _ => 0) 0 (fun _ => 0) cmemEx SavedFileTag.cost
        = NpyValue.scalar 3 ∧
    ¬ ∃ t : SavedFileTag,
        savedNpyFiles (fun _ _ => 0) 0 (fun _ => 0) cmemEx t
          = NpyValue.matrix (memoryMatrix1 cmemEx) := by
  constructor
  · show NpyValue.scalar ((Finset.range SAMPLING_STEPS).sum cmemEx)
      = NpyValue.scalar 3
    have hfun : ∀ i, cmemEx i
        = (if i = 0 then (1 : ℚ) else 0) + (if i = 1 then (2 : ℚ) else 0) := by
      intro i
      unfold cmemEx
      by_cases h0 : i = 0
      · simp [h0]
      · by_cases h1 : i = 1
        · simp [h0, h1]
        · simp [h0, h1]
    have hsum : (Finset.range SAMPLING_STEPS).sum cmemEx = 3 := by
      rw [Finset.sum_congr rfl (fun i _ => hfun i), Finset.sum_add_distrib,
        Finset.sum_ite_eq', Finset.sum_ite_eq']
      norm_num [SAMPLING_STEPS]
    rw [hsum]
  · decide

/-- C3 (amended): after the control loop finishes, the full
`(SAMPLING_STEPS, 3)` end-effector trajectory is saved as an `.npy` file,
and of the per-tick cost series only its scalar sum
`np.sum(cost_memory)` is saved as an `.npy` file (the per-tick series that
is saved alongside is the sampling-time series, not the cost series). -/
theorem saved_files_trajectory_and_cost_sum
    (xm : ℕ → Fin 3 → ℚ) (dt : ℚ) (st : ℕ → ℚ) (cm : ℕ → ℚ) :
    savedNpyFiles xm dt st cm SavedFileTag.x_trag
        = NpyValue.matrix (memoryMatrix3 xm) ∧
    savedNpyFiles xm dt st cm SavedFileTag.cost
        = NpyValue.scalar ((Finset.range SAMPLING_STEPS).sum cm) ∧
    savedNpyFiles xm dt st cm SavedFileTag.single_time
        = NpyValue.matrix (memoryMatrix1 st) :=
  ⟨rfl, rfl, rfl⟩

end PandaInference

namespace CartPoleTrain

/-- C7: `EMA.update_average(old, new)` returns `old*beta + (1-beta)*new`
(and `new` when `old is None`); the EMA model is updated by this rule at
every training step whose counter is divisible by `update_ema_every`, after
being reset to the current model whenever such an update occurs while
`train_steps_current < step_start_ema`; and one final EMA update (with the
same reset guard) is performed after the epoch loop ends. -/
theorem ema_schedule_and_update_rule (e : EMA) :
    (∀ new : ℚ, e.update_average none new = new) ∧
    (∀ old new : ℚ,
      e.update_average (some old) new = old * e.beta + (1 - e.beta) * new) ∧
    (∀ (params : ℕ → List ℚ) (ema0 : List ℚ) (n : ℕ),
      emaAfterSteps e params ema0 (n + 1)
        = if n % update_ema_every = 0 then
            List.zipWith (fun o c => o * e.beta + (1 - e.beta) * c)
              (if n < step_start_ema then params n
                else emaAfterSteps e params ema0 n)
              (params n)
          else emaAfterSteps e params ema0 n) ∧
    (∀ (params : ℕ → List ℚ) (ema0 : List ℚ) (N : ℕ),
      emaFinal e params ema0 N
        = List.zipWith (fun o c => o * e.beta + (1 - e.beta) * c)
            (if N < step_start_ema then params N
              else emaAfterSteps e params ema0 N)
            (params N)) :=
  ⟨fun _ => rfl, fun _ _ => rfl, fun _ _ _ => rfl, fun _ _ _ => rfl⟩

/-- C8: `AMPCNet.forward` only succeeds for inputs whose element count after
the output layer equals `512*8`: for a batch of `n` rows of the 4-feature
input, the forward pass returns a shape exactly when `n = 512` (the
`view(512, 8, 1)` raises an error otherwise), and on a 512-row input the
result has shape `(512, 8, 1)`. -/
theorem forward_requires_batch_512 :
    (∀ n : ℕ, (model.forward (n, 4)).isSome ↔ n = 512) ∧
    model.forward (512, 4) = some (512, 8, 1) := by
  have hfwd : ∀ n : ℕ, model.forward (n, 4)
      = if n * 8 = 512 * 8 * 1 then some (512, 8, 1) else none := by
    intro n
    simp [model, AMPCNet.init, AMPCNet.forward, input_size, output_size,
      linearShape, tanhShape, viewShape]
  constructor
  · intro n
    rw [hfwd n]
    by_cases h : n * 8 = 512 * 8 * 1
    · simp [h]
      omega
    · simp [h]
      omega
  · rfl

theorem epochLoop_no_break (L : ℕ) :
    ∀ (l : List ℕ) (acc : List ℕ), (∀ x ∈ l, x ≠ L - 1) →
      l.foldl (epochLoopStep L) (false, acc) = (false, acc ++ l) := by
  intro l
  induction l with
  | nil => intro acc _; simp
  | cons x xs ih =>
    intro acc h
    have hx : x ≠ L - 1 := h x (List.mem_cons_self x xs)
    have hxs : ∀ y ∈ xs, y ≠ L - 1 := fun y hy => h y (List.mem_cons_of_mem x hy)
    simp only [List.foldl_cons]
    rw [show epochLoopStep L (false, acc) x = (false, acc ++ [x]) from by
      simp [epochLoopStep, hx]]
    rw [ih (acc ++ [x]) hxs]
    simp

/-- C9: every training epoch processes exactly `len(train_dataloader) - 1`
batches: the processed batch indices are `0 … L-2`, the last batch index
`L-1` is never processed (no loss computation or optimizer step runs on
it), and `train_steps_current` grows by exactly `L-1` per completed epoch
(`max_steps` is `None`). -/
theorem epoch_processes_all_but_last_batch (L : ℕ) (hL : 1 ≤ L) :
    processedBatches L = List.range (L - 1) ∧
    (L - 1) ∉ processedBatches L ∧
    (processedBatches L).length = L - 1 ∧
    ∀ E : ℕ, trainStepsAfterEpochs L E = E * (L - 1) := by
  have hrange : List.range L = List.range (L - 1) ++ [L - 1] := by
    conv_lhs => rw [show L = (L - 1) + 1 from by omega]
    rw [List.range_succ]
  have key : processedBatches L = List.range (L - 1) := by
    unfold processedBatches
    rw [hrange, List.foldl_append,
      epochLoop_no_break L (List.range (L - 1)) []
        (fun x hx => by rw [List.mem_range] at hx; omega)]
    simp [epochLoopStep]
  refine ⟨key, ?_, ?_, ?_⟩
  · rw [key]
    simp [List.mem_range]
  · rw [key, List.length_range]
  · intro E
    induction E with
    | zero => simp [trainStepsAfterEpochs]
    | succ E ihE =>
      unfold trainStepsAfterEpochs at ihE ⊢
      rw [List.range_succ, List.foldl_append, ihE]
      simp only [List.foldl_cons, List.foldl_nil]
      rw [key, List.length_range]
      ring

theorem epoch_processes_all_but_last_batch_witness :
    1 ≤ 3 ∧ processedBatches 3 = List.range (3 - 1) :=
  ⟨by decide, (epoch_processes_all_but_last_batch 3 (by decide)).1⟩

end CartPoleTrain
